import Mathlib

/-!
Shallow embedding of net/tcp/tcp_conn.c: the fixed-capacity TCP connection
pool, the local-port selector, and the lifecycle entry points.

Modelling conventions, following the source:
- g_tcp_connections is an arena of CONFIG_NET_TCP_CONNS records addressed by
  index; the intrusive dq_queue_t lists g_free_tcp_connections and
  g_active_tcp_connections are sequences of record indices (dq_addlast is
  append, dq_remfirst pops the head, dq_rem erases the node).
- HTONS/NTOHS follow the little-endian ARM configuration of this repository
  (src/arch is SAMV7 Cortex-M7): a 16-bit byte swap.
- The optionally compiled subsystems (CONFIG_NET_TCP_READAHEAD,
  CONFIG_NET_TCP_WRITE_BUFFERS, CONFIG_NET_TCPBACKLOG) are modelled in their
  compiled-out configuration; the callback chain conn->list, which
  uip_tcpfree always releases, is kept as a list of opaque callback ids.
- CONFIG_NET_SOLINGER (the linger-mode toggle that removes the forced
  reclamation fall-back of uip_tcpalloc) is threaded as a Bool parameter.
- DEBUGASSERT and the unbounded ephemeral-port search are modelled by
  Option: a none result is a fatal assertion or a diverging loop, and no
  successor state exists.
-/

/-- Connection states of tcpstateflags used by tcp_conn.c (from uip.h). -/
inductive TcpState
  | CLOSED
  | ALLOCATED
  | SYN_RCVD
  | SYN_SENT
  | ESTABLISHED
  | FIN_WAIT_1
  | FIN_WAIT_2
  | CLOSING
  | TIME_WAIT
  | LAST_ACK
deriving DecidableEq, Repr

/-- The five states the fall-back scan of uip_tcpalloc may sacrifice:
UIP_CLOSING, UIP_FIN_WAIT_1, UIP_FIN_WAIT_2, UIP_TIME_WAIT, UIP_LAST_ACK. -/
def isSacrificial : TcpState → Bool
  | .CLOSING => true
  | .FIN_WAIT_1 => true
  | .FIN_WAIT_2 => true
  | .TIME_WAIT => true
  | .LAST_ACK => true
  | _ => false

/-- struct uip_conn restricted to the fields tcp_conn.c touches; conn->list
(the callback chain) is a list of opaque callback ids. -/
structure Conn where
  tcpstateflags : TcpState
  lport : Nat
  rport : Nat
  ripaddr : Nat
  rcvseq : Nat
  sndseq : Nat
  timer : Nat
  rto : Nat
  sa : Nat
  sv : Nat
  nrtx : Nat
  unacked : Nat
  mss : Nat
  crefs : Nat
  list : List Nat
deriving DecidableEq, Repr

/-- memset(conn, 0, sizeof(struct uip_conn)); UIP_CLOSED is the zero state. -/
def Conn.zero : Conn :=
  { tcpstateflags := .CLOSED, lport := 0, rport := 0, ripaddr := 0, rcvseq := 0,
    sndseq := 0, timer := 0, rto := 0, sa := 0, sv := 0, nrtx := 0, unacked := 0,
    mss := 0, crefs := 0, list := [] }

/-- The record as uip_tcpalloc hands it out: zeroed by memset, then
tcpstateflags = UIP_ALLOCATED. -/
def allocConn : Conn := { Conn.zero with tcpstateflags := .ALLOCATED }

/-- The private data of tcp_conn.c: the arena g_tcp_connections (capacity =
CONFIG_NET_TCP_CONNS), g_free_tcp_connections, g_active_tcp_connections and
g_last_tcp_port. -/
@[ext]
structure Pool where
  capacity : Nat
  recs : Nat → Conn
  free : List Nat
  active : List Nat
  lastPort : Nat

/-- Write record i of the arena. -/
def updateRec (f : Nat → Conn) (i : Nat) (c : Conn) : Nat → Conn :=
  fun j => if j = i then c else f j

/-- HTONS of the little-endian configuration: a 16-bit byte swap. -/
def htons16 (p : Nat) : Nat := (p % 256) * 256 + (p / 256) % 256

/-- NTOHS, identical to HTONS. -/
def ntohs16 (p : Nat) : Nat := htons16 p

/-- Values from the nuttx/net headers outside src/; no claim depends on the
numbers themselves. -/
def UIP_RTO : Nat := 3

/-- Initial MSS from the nuttx/net headers outside src/. -/
def UIP_TCP_INITIAL_MSS : Nat := 536

/-- uip_tcplistener: scan every slot of the whole arena (not the active
list) for a record whose state is not UIP_CLOSED and whose lport equals
portno; return the first such index. -/
def uip_tcplistener (recs : Nat → Conn) (N : Nat) (portno : Nat) : Option Nat :=
  (List.range N).find? fun i =>
    decide ((recs i).tcpstateflags ≠ .CLOSED ∧ (recs i).lport = portno)

/-- The do-while loop of uip_selectport for portno == 0, with explicit fuel
(the C loop is unbounded; fuel exhaustion models divergence).  Each round:
portno = ++g_last_tcp_port (uint16 arithmetic), then the counter is clamped
to 4096 when it reached 32000 or more, and the round repeats while
uip_tcplistener(htons(g_last_tcp_port)) finds the counter value in use.
Returns (portno, g_last_tcp_port). -/
def selectLoop (recs : Nat → Conn) (N : Nat) : Nat → Nat → Option (Nat × Nat)
  | 0, _ => none
  | fuel + 1, last =>
      let portno := (last + 1) % 65536
      let lastNext := if 32000 ≤ portno then 4096 else portno
      if (uip_tcplistener recs N (htons16 lastNext)).isSome then
        selectLoop recs N fuel lastNext
      else
        some (portno, lastNext)

/-- One full cycle of the 16-bit port space: if no candidate is accepted
within this many rounds the C loop never terminates. -/
def SELECT_FUEL : Nat := 65536

/-- Result of uip_selectport: a selected or verified port together with the
updated g_last_tcp_port, the -EADDRINUSE error, or divergence of the
ephemeral-port loop. -/
inductive SelectResult
  | ok (portno : Nat) (lastPort : Nat)
  | inUse
  | noFuel
deriving DecidableEq, Repr

/-- uip_selectport: for portno == 0 run the ephemeral-port loop; otherwise
fail with -EADDRINUSE when uip_tcplistener finds the exact value portno in
use, else return portno unchanged. -/
def uip_selectport (s : Pool) (portno : Nat) : SelectResult :=
  if portno = 0 then
    match selectLoop s.recs s.capacity SELECT_FUEL s.lastPort with
    | some (p, last1) => .ok p last1
    | none => .noFuel
  else if (uip_tcplistener s.recs s.capacity portno).isSome then
    .inUse
  else
    .ok portno s.lastPort

/-- uip_tcpinit: mark every record UIP_CLOSED, dq_addlast each into the free
list in index order, and set g_last_tcp_port = 1024. -/
def uip_tcpinit (N : Nat) : Pool :=
  { capacity := N, recs := fun _ => Conn.zero, free := List.range N,
    active := [], lastPort := 1024 }

/-- uip_tcpfree: DEBUGASSERT(conn->crefs == 0) (none on violation); free the
callback chain; dq_rem from the active list unless the state is
UIP_ALLOCATED (never inserted); set UIP_CLOSED; dq_addlast onto the free
list. -/
def uip_tcpfree (s : Pool) (i : Nat) : Option Pool :=
  if (s.recs i).crefs = 0 then
    some { s with
      recs := updateRec s.recs i
        { s.recs i with list := [], tcpstateflags := .CLOSED },
      active :=
        if (s.recs i).tcpstateflags ≠ .ALLOCATED then s.active.erase i
        else s.active,
      free := s.free ++ [i] }
  else
    none

/-- The adoption test of the uip_tcpalloc fall-back scan: tmp is taken as
the new candidate when its state is sacrificial and either no candidate is
held yet (conn == NULL) or tmp->timer > conn->timer. -/
def adopt (recs : Nat → Conn) (conn : Option Nat) (tmp : Nat) : Bool :=
  isSacrificial (recs tmp).tcpstateflags &&
    (match conn with
     | none => true
     | some c => decide ((recs c).timer < (recs tmp).timer))

/-- The while loop of uip_tcpalloc over the active list, started with
conn = NULL. -/
def scanSacrifice (recs : Nat → Conn) : List Nat → Option Nat → Option Nat
  | [], conn => conn
  | tmp :: rest, conn =>
      scanSacrifice recs rest (if adopt recs conn tmp then some tmp else conn)

/-- uip_tcpalloc: dq_remfirst from the free list; when it is empty and
CONFIG_NET_SOLINGER (so) is unset, scan the active list for the sacrifice
candidate, uip_tcpfree it and pop the free list again; a successful pop is
memset to zero and marked UIP_ALLOCATED.  Returns the new pool and the
allocated index (none when allocation failed). -/
def uip_tcpalloc (so : Bool) (s : Pool) : Option (Pool × Option Nat) :=
  match s.free with
  | i :: rest =>
      some ({ s with free := rest, recs := updateRec s.recs i allocConn }, some i)
  | [] =>
      if so then some (s, none)
      else
        match scanSacrifice s.recs s.active none with
        | none => some (s, none)
        | some j =>
            match uip_tcpfree s j with
            | none => none
            | some s1 =>
                match s1.free with
                | i :: rest =>
                    some ({ s1 with
                            free := rest,
                            recs := updateRec s1.recs i allocConn }, some i)
                | [] => some (s1, none)

/-- The fields of struct uip_tcpip_hdr that uip_tcpaccept reads. -/
structure TcpHdr where
  srcipaddr : Nat
  srcport : Nat
  destport : Nat
  seqno : Nat
deriving DecidableEq, Repr

/-- uip_tcpaccept: uip_tcpalloc, then fill the new record (rto and timer =
UIP_RTO, sa = 0, sv = 4, nrtx = 0, endpoints from the segment, initial mss,
state UIP_SYN_RCVD, sndseq from the external sequence generator (the isn
argument), unacked = 1, rcvseq copied from the segment) and dq_addlast it
onto the active list. -/
def uip_tcpaccept (so : Bool) (s : Pool) (buf : TcpHdr) (isn : Nat) :
    Option (Pool × Option Nat) :=
  match uip_tcpalloc so s with
  | none => none
  | some (s1, none) => some (s1, none)
  | some (s1, some i) =>
      some ({ s1 with
        recs := updateRec s1.recs i
          { s1.recs i with
            rto := UIP_RTO, timer := UIP_RTO, sa := 0, sv := 4, nrtx := 0,
            lport := buf.destport, rport := buf.srcport,
            mss := UIP_TCP_INITIAL_MSS, ripaddr := buf.srcipaddr,
            tcpstateflags := .SYN_RCVD, sndseq := isn, unacked := 1,
            rcvseq := buf.seqno },
        active := s1.active ++ [i] }, some i)

/-- Return codes of the socket-level entry points: OK, -EADDRINUSE,
-EISCONN. -/
inductive SockResult
  | ok
  | eaddrinuse
  | eisconn
deriving DecidableEq, Repr

/-- uip_tcpconnect: reject a NULL conn or a conn not in UIP_ALLOCATED with
-EISCONN; select or verify the local port from the stored lport; on success
set state UIP_SYN_SENT, seed sndseq (isn argument), mss, unacked = 1,
nrtx = 0, timer = 1, rto = UIP_RTO, sa = 0, sv = 16, store the selected
port (htons) and the remote endpoint, and dq_addlast onto the active
list. -/
def uip_tcpconnect (s : Pool) (conn : Option Nat) (ra rp isn : Nat) :
    Option (SockResult × Pool) :=
  match conn with
  | none => some (.eisconn, s)
  | some i =>
      if (s.recs i).tcpstateflags ≠ .ALLOCATED then some (.eisconn, s)
      else
        match uip_selectport s (ntohs16 (s.recs i).lport) with
        | .inUse => some (.eaddrinuse, s)
        | .noFuel => none
        | .ok port last1 =>
            some (.ok, { s with
              lastPort := last1,
              recs := updateRec s.recs i
                { s.recs i with
                  tcpstateflags := .SYN_SENT, sndseq := isn,
                  mss := UIP_TCP_INITIAL_MSS, unacked := 1, nrtx := 0,
                  timer := 1, rto := UIP_RTO, sa := 0, sv := 16,
                  lport := htons16 port, rport := rp, ripaddr := ra },
              active := s.active ++ [i] })

/-- uip_tcpbind: verify or select a local port from ntohs(addr->sin_port);
on failure return the negated errno; on success store addr->sin_port (the
requested network-order value, exactly as the source does) into conn->lport.
No state change, no list operation. -/
def uip_tcpbind (s : Pool) (i : Nat) (sinPort : Nat) :
    Option (SockResult × Pool) :=
  match uip_selectport s (ntohs16 sinPort) with
  | .noFuel => none
  | .inUse => some (.eaddrinuse, s)
  | .ok _port last1 =>
      some (.ok, { s with
        lastPort := last1,
        recs := updateRec s.recs i { s.recs i with lport := sinPort } })

/-- Iterate uip_tcpalloc: the pool after k consecutive allocations together
with the k results in call order (stops early on an assertion abort, which
never happens in the uses below). -/
def allocSeq (so : Bool) : Nat → Pool → Pool × List (Option Nat)
  | 0, s => (s, [])
  | k + 1, s =>
      match uip_tcpalloc so s with
      | some (s1, r) =>
          let p := allocSeq so k s1
          (p.1, r :: p.2)
      | none => (s, [])

/-- The list-membership invariant of the pool: the free and active lists are
duplicate-free index sets inside the arena, a record is on the free list
exactly when it is UIP_CLOSED, active-list members are neither UIP_CLOSED
nor UIP_ALLOCATED, and every record in any other state is on the active
list. -/
structure PoolInv (s : Pool) : Prop where
  nodupFree : s.free.Nodup
  nodupActive : s.active.Nodup
  freeLt : ∀ i ∈ s.free, i < s.capacity
  activeLt : ∀ i ∈ s.active, i < s.capacity
  freeIffClosed : ∀ i < s.capacity,
    (i ∈ s.free ↔ (s.recs i).tcpstateflags = .CLOSED)
  activeState : ∀ i ∈ s.active,
    (s.recs i).tcpstateflags ≠ .CLOSED ∧ (s.recs i).tcpstateflags ≠ .ALLOCATED
  activeOfState : ∀ i < s.capacity, (s.recs i).tcpstateflags ≠ .CLOSED →
    (s.recs i).tcpstateflags ≠ .ALLOCATED → i ∈ s.active

/-- One invocation of a pool operation on a valid record index.  release is
invoked, per the documented lifecycle, on a record that is not already free:
dq_rem of a node that is not in the queue corrupts a C dq_queue_t, so such a
call is undefined behavior of the source and outside the modelled steps. -/
inductive Step : Pool → Pool → Prop
  | alloc (so : Bool) {s s' : Pool} (r : Option Nat) :
      uip_tcpalloc so s = some (s', r) → Step s s'
  | release {s s' : Pool} (i : Nat) : i < s.capacity →
      (s.recs i).tcpstateflags ≠ .CLOSED → uip_tcpfree s i = some s' →
      Step s s'
  | accept (so : Bool) {s s' : Pool} (buf : TcpHdr) (isn : Nat)
      (r : Option Nat) : uip_tcpaccept so s buf isn = some (s', r) → Step s s'
  | connect {s s' : Pool} (i ra rp isn : Nat) (r : SockResult) :
      i < s.capacity → uip_tcpconnect s (some i) ra rp isn = some (r, s') →
      Step s s'
  | bind {s s' : Pool} (i sinPort : Nat) (r : SockResult) : i < s.capacity →
      uip_tcpbind s i sinPort = some (r, s') → Step s s'

/-- Pools reachable from uip_tcpinit by any sequence of operations. -/
inductive Reachable (N : Nat) : Pool → Prop
  | start : Reachable N (uip_tcpinit N)
  | step {s s' : Pool} : Reachable N s → Step s s' → Reachable N s'

/-- Scenario arena for C1: record 0 ESTABLISHED, records 1 and 2 sacrificial
with equal timers (record 1 earlier on the active list). -/
def c1_recs : Nat → Conn := fun j =>
  if j = 0 then { Conn.zero with tcpstateflags := .ESTABLISHED, timer := 50 }
  else if j = 1 then { Conn.zero with tcpstateflags := .TIME_WAIT, timer := 120 }
  else { Conn.zero with tcpstateflags := .FIN_WAIT_2, timer := 120 }

/-- Scenario pool for C1: full pool, empty free list. -/
def c1_s : Pool :=
  { capacity := 3, recs := c1_recs, free := [], active := [0, 1, 2],
    lastPort := 1024 }

/-- Scenario pool for C3: g_last_tcp_port at 31999 and port 32000 held (in
network order) by an ESTABLISHED record. -/
def c3_s : Pool :=
  { uip_tcpinit 4 with
    lastPort := 31999,
    recs := updateRec (fun _ => Conn.zero) 0
      { Conn.zero with tcpstateflags := .ESTABLISHED, lport := htons16 32000 } }

/-- Pool after one allocation from uip_tcpinit 4: record 0 ALLOCATED. -/
def c4_s0a : Pool :=
  { capacity := 4, recs := updateRec (fun _ => Conn.zero) 0 allocConn,
    free := [1, 2, 3], active := [], lastPort := 1024 }

/-- Pool after two allocations from uip_tcpinit 4: records 0 and 1
ALLOCATED. -/
def c4_s0 : Pool :=
  { capacity := 4,
    recs := updateRec (updateRec (fun _ => Conn.zero) 0 allocConn) 1 allocConn,
    free := [2, 3], active := [], lastPort := 1024 }

/-- Pool after uip_tcpbind of record 0 with sin_port 0 on c4_s0. -/
def c4_s1 : Pool := ((uip_tcpbind c4_s0 0 0).map Prod.snd).getD c4_s0

/-- Pool after a second uip_tcpbind, of record 1 with sin_port 0. -/
def c4_s2 : Pool := ((uip_tcpbind c4_s1 1 0).map Prod.snd).getD c4_s1

/-- Scenario pool for C5: an active record with crefs = 1. -/
def c5_s : Pool :=
  { capacity := 1,
    recs := fun _ => { Conn.zero with tcpstateflags := .ESTABLISHED, crefs := 1 },
    free := [], active := [0], lastPort := 1024 }

/-- Scenario pool for C6: record 0 active in FIN_WAIT_1 with crefs = 0. -/
def c6_s : Pool :=
  { capacity := 2,
    recs := updateRec (fun _ => Conn.zero) 0
      { Conn.zero with tcpstateflags := .FIN_WAIT_1, lport := 260 },
    free := [1], active := [0], lastPort := 1024 }

/-- Scenario pool for C7: record 0 freshly ALLOCATED. -/
def c7_s0 : Pool :=
  { capacity := 2, recs := updateRec (fun _ => Conn.zero) 0 allocConn,
    free := [1], active := [], lastPort := 1024 }

/-- Pool after a successful uip_tcpconnect of record 0 on c7_s0. -/
def c7_s1 : Pool :=
  ((uip_tcpconnect c7_s0 (some 0) 777 80 42).map Prod.snd).getD c7_s0

/-- Scenario pool for C8: slot 2 holds port 80 in state ESTABLISHED while
the active list is empty, so only a whole-arena scan can see it. -/
def c8_s : Pool :=
  { capacity := 4,
    recs := updateRec (fun _ => Conn.zero) 2
      { Conn.zero with tcpstateflags := .ESTABLISHED, lport := 80 },
    free := [0, 1, 3], active := [], lastPort := 1024 }

theorem updateRec_self (f : Nat → Conn) (i : Nat) (c : Conn) :
    updateRec f i c i = c := by
  simp [updateRec]

theorem updateRec_ne (f : Nat → Conn) (i : Nat) (c : Conn) (j : Nat)
    (h : j ≠ i) : updateRec f i c j = f j := by
  simp [updateRec, h]

theorem updateRec_updateRec (f : Nat → Conn) (i : Nat) (a b : Conn) :
    updateRec (updateRec f i a) i b = updateRec f i b := by
  funext j
  by_cases h : j = i <;> simp [updateRec, h]

theorem nodup_append_single (l : List Nat) (a : Nat) (h : l.Nodup)
    (ha : a ∉ l) : (l ++ [a]).Nodup := by
  rw [List.nodup_append]
  refine ⟨h, List.nodup_singleton a, ?_⟩
  intro x hx hx2
  simp only [List.mem_singleton] at hx2
  subst hx2
  exact ha hx

theorem tcplistener_isSome_iff (recs : Nat → Conn) (N : Nat) (p : Nat) :
    (uip_tcplistener recs N p).isSome = true ↔
      ∃ i < N, (recs i).tcpstateflags ≠ .CLOSED ∧ (recs i).lport = p := by
  unfold uip_tcplistener
  rw [List.find?_isSome]
  simp [List.mem_range]

/-- C10: uip_tcpconnect on a NULL connection record returns -EISCONN (the
same error as for a record not in UIP_ALLOCATED) immediately, with the pool
untouched: the result is the same for every pool and every remote
endpoint. -/
theorem C10_connect_null_rejected (s : Pool) (ra rp isn : Nat) :
    uip_tcpconnect s none ra rp isn = some (.eisconn, s) := rfl

/-- C5: uip_tcpfree on a record with crefs different from zero hits
DEBUGASSERT(conn->crefs == 0): the call is a fatal assertion failure (no
successor pool exists), so the record is neither torn down nor returned to
the free list. -/
theorem C5_free_asserts_zero_crefs (s : Pool) (i : Nat)
    (h : (s.recs i).crefs ≠ 0) : uip_tcpfree s i = none := by
  unfold uip_tcpfree
  rw [if_neg h]

/-- C5 witness: a concrete record with crefs = 1 makes uip_tcpfree abort. -/
theorem C5_witness : (c5_s.recs 0).crefs ≠ 0 ∧ uip_tcpfree c5_s 0 = none :=
  ⟨by decide, C5_free_asserts_zero_crefs c5_s 0 (by decide)⟩

/-- C6: uip_tcpfree on any record with crefs = 0 succeeds: it erases the
record from the active list unless the state was UIP_ALLOCATED (in which
case the active list is unchanged), releases the callback chain, sets the
state to UIP_CLOSED and appends the record to the free list. -/
theorem C6_free_closes_record (s : Pool) (i : Nat)
    (h : (s.recs i).crefs = 0) :
    uip_tcpfree s i = some { s with
      recs := updateRec s.recs i
        { s.recs i with list := [], tcpstateflags := .CLOSED },
      active :=
        if (s.recs i).tcpstateflags = .ALLOCATED then s.active
        else s.active.erase i,
      free := s.free ++ [i] } := by
  unfold uip_tcpfree
  rw [if_pos h]
  by_cases hA : (s.recs i).tcpstateflags = .ALLOCATED <;> simp [hA]

/-- C6 witness: freeing the active FIN_WAIT_1 record 0 of c6_s removes it
from the active list, closes it and appends it to the free list. -/
theorem C6_witness :
    (c6_s.recs 0).crefs = 0 ∧
    uip_tcpfree c6_s 0 = some { c6_s with
      recs := updateRec c6_s.recs 0
        { c6_s.recs 0 with list := [], tcpstateflags := .CLOSED },
      active :=
        if (c6_s.recs 0).tcpstateflags = .ALLOCATED then c6_s.active
        else c6_s.active.erase 0,
      free := c6_s.free ++ [0] } :=
  ⟨by decide, C6_free_closes_record c6_s 0 (by decide)⟩

/-- C8: for a non-zero requested port, uip_selectport fails with
-EADDRINUSE exactly when some slot of the whole arena (active or not) holds
a record whose state differs from UIP_CLOSED with that exact lport, and
otherwise succeeds returning the same port with g_last_tcp_port
unchanged. -/
theorem C8_selectport_nonzero (s : Pool) (portno : Nat) (h : portno ≠ 0) :
    (uip_selectport s portno = .inUse ↔
      ∃ i < s.capacity,
        (s.recs i).tcpstateflags ≠ .CLOSED ∧ (s.recs i).lport = portno) ∧
    ((¬ ∃ i < s.capacity,
        (s.recs i).tcpstateflags ≠ .CLOSED ∧ (s.recs i).lport = portno) →
      uip_selectport s portno = .ok portno s.lastPort) := by
  unfold uip_selectport
  rw [if_neg h]
  constructor
  · constructor
    · intro he
      by_cases hs : (uip_tcplistener s.recs s.capacity portno).isSome = true
      · exact (tcplistener_isSome_iff s.recs s.capacity portno).mp hs
      · rw [if_neg hs] at he
        cases he
    · intro hex
      rw [if_pos ((tcplistener_isSome_iff s.recs s.capacity portno).mpr hex)]
  · intro hnex
    rw [if_neg
      (fun hs => hnex ((tcplistener_isSome_iff s.recs s.capacity portno).mp hs))]

/-- C8 witness: slot 2 of c8_s holds port 80 in ESTABLISHED while on no
list, and requesting port 80 fails; requesting port 81 succeeds. -/
theorem C8_witness :
    (uip_selectport c8_s 80 = .inUse ↔
      ∃ i < c8_s.capacity,
        (c8_s.recs i).tcpstateflags ≠ .CLOSED ∧ (c8_s.recs i).lport = 80) ∧
    ((¬ ∃ i < c8_s.capacity,
        (c8_s.recs i).tcpstateflags ≠ .CLOSED ∧ (c8_s.recs i).lport = 80) →
      uip_selectport c8_s 80 = .ok 80 c8_s.lastPort) :=
  C8_selectport_nonzero c8_s 80 (by decide)

/-- C3: the ephemeral-port selector violates the 4096..31999 range at both
boundaries.  Immediately after uip_tcpinit (g_last_tcp_port = 1024) it
returns port 1025; with the counter at 31999 it returns port 32000 while
clamping the counter to 4096, and on that wraparound step the in-use check
inspects 4096, not 32000, so 32000 is returned even though an ESTABLISHED
record of c3_s holds it. -/
theorem C3_selectport_leaves_range :
    uip_selectport (uip_tcpinit 4) 0 = .ok 1025 1025 ∧
    1025 < 4096 ∧
    uip_selectport c3_s 0 = .ok 32000 4096 ∧
    31999 < 32000 ∧
    (uip_tcplistener c3_s.recs c3_s.capacity (htons16 32000)).isSome = true :=
  ⟨rfl, by decide, rfl, by decide, rfl⟩

/-- C4: uip_tcpbind resolves an ephemeral port but then stores
addr->sin_port (the requested value 0), not the resolved port: after two
binds with sin_port 0 on the two ALLOCATED records of c4_s0 (itself the
result of two allocations from uip_tcpinit 4), the selector was advanced to
1025 and then 1026, yet both records still have lport 0 - equal, not
distinct. -/
theorem C4_bind_discards_selected_port :
    uip_tcpalloc false (uip_tcpinit 4) = some (c4_s0a, some 0) ∧
    uip_tcpalloc false c4_s0a = some (c4_s0, some 1) ∧
    uip_tcpbind c4_s0 0 0 = some (.ok, c4_s1) ∧
    c4_s1.lastPort = 1025 ∧ (c4_s1.recs 0).lport = 0 ∧
    uip_tcpbind c4_s1 1 0 = some (.ok, c4_s2) ∧
    c4_s2.lastPort = 1026 ∧ (c4_s2.recs 1).lport = 0 ∧
    (c4_s2.recs 0).lport = (c4_s2.recs 1).lport ∧
    c4_s1.active = c4_s0.active ∧ c4_s2.active = c4_s0.active ∧
    (c4_s1.recs 0).tcpstateflags = .ALLOCATED ∧
    (c4_s2.recs 1).tcpstateflags = .ALLOCATED :=
  ⟨rfl, rfl, rfl, rfl, rfl, rfl, rfl, rfl, rfl, rfl, rfl, rfl, rfl⟩

theorem alloc_pop (so : Bool) (s : Pool) (i : Nat) (rest : List Nat)
    (hf : s.free = i :: rest) :
    uip_tcpalloc so s =
      some ({ s with free := rest, recs := updateRec s.recs i allocConn },
        some i) := by
  unfold uip_tcpalloc
  rw [hf]

theorem alloc_empty_linger (s : Pool) (hf : s.free = []) :
    uip_tcpalloc true s = some (s, none) := by
  unfold uip_tcpalloc
  rw [hf]
  rfl

theorem allocSeq_succ (so : Bool) (k : Nat) (s s1 : Pool) (r : Option Nat)
    (h : uip_tcpalloc so s = some (s1, r)) :
    allocSeq so (k + 1) s =
      ((allocSeq so k s1).1, r :: (allocSeq so k s1).2) := by
  simp only [allocSeq]
  rw [h]

theorem allocSeq_spec (so : Bool) :
    ∀ (k : Nat) (s : Pool), k ≤ s.free.length →
      (allocSeq so k s).2 = (s.free.take k).map some ∧
      (allocSeq so k s).1.free = s.free.drop k := by
  intro k
  induction k with
  | zero => intro s h; exact ⟨rfl, rfl⟩
  | succ k ih =>
    intro s h
    cases hf : s.free with
    | nil => rw [hf] at h; exact absurd h (by simp)
    | cons i rest =>
      have hp := alloc_pop so s i rest hf
      have h1 : k ≤ rest.length := by
        rw [hf] at h
        simp at h
        omega
      obtain ⟨ha, hb⟩ :=
        ih { s with free := rest, recs := updateRec s.recs i allocConn }
          (by simpa using h1)
      rw [allocSeq_succ so k s _ _ hp]
      exact ⟨by simp [ha], by simp [hb]⟩

/-- C9: with linger mode enabled (CONFIG_NET_SOLINGER set), C consecutive
allocations from a freshly initialized pool of capacity C return the C
distinct records 0..C-1 in order, and the next allocation returns none with
the pool completely unchanged: no active record is reclaimed or torn
down. -/
theorem C9_exhaustion_under_linger (C : Nat) :
    (allocSeq true C (uip_tcpinit C)).2 = (List.range C).map some ∧
    ((allocSeq true C (uip_tcpinit C)).2).Nodup ∧
    uip_tcpalloc true (allocSeq true C (uip_tcpinit C)).1 =
      some ((allocSeq true C (uip_tcpinit C)).1, none) := by
  have hlen : C ≤ (uip_tcpinit C).free.length := by simp [uip_tcpinit]
  obtain ⟨h1, h2⟩ := allocSeq_spec true C (uip_tcpinit C) hlen
  have hfr : (uip_tcpinit C).free = List.range C := rfl
  rw [hfr] at h1 h2
  have ht : (List.range C).take C = List.range C := by simp
  rw [ht] at h1
  constructor
  · exact h1
  constructor
  · rw [h1]
    exact List.Nodup.map (Option.some_injective Nat) (List.nodup_range C)
  · exact alloc_empty_linger _ (by rw [h2]; simp)

/-- C7: uip_tcpconnect requires tcpstateflags = UIP_ALLOCATED and fails
with -EISCONN otherwise (pool untouched); a successful call transitions the
record from UIP_ALLOCATED to UIP_SYN_SENT and inserts it into the active
list, so a second connect on the same record fails with -EISCONN: a
connection is connected at most once. -/
theorem C7_connect_connects_at_most_once (s s2 : Pool)
    (i ra rp isn ra2 rp2 isn2 : Nat) :
    ((s.recs i).tcpstateflags ≠ .ALLOCATED →
        uip_tcpconnect s (some i) ra rp isn = some (.eisconn, s)) ∧
    (uip_tcpconnect s (some i) ra rp isn = some (.ok, s2) →
        (s.recs i).tcpstateflags = .ALLOCATED ∧
        (s2.recs i).tcpstateflags = .SYN_SENT ∧ i ∈ s2.active ∧
        uip_tcpconnect s2 (some i) ra2 rp2 isn2 = some (.eisconn, s2)) := by
  constructor
  · intro hne
    simp only [uip_tcpconnect]
    rw [if_pos hne]
  · intro he
    by_cases hA : (s.recs i).tcpstateflags = .ALLOCATED
    · refine ⟨hA, ?_⟩
      simp only [uip_tcpconnect] at he
      rw [if_neg (by simp [hA])] at he
      cases hsel : uip_selectport s (ntohs16 (s.recs i).lport) with
      | ok port last1 =>
        rw [hsel] at he
        simp only [Option.some.injEq, Prod.mk.injEq] at he
        obtain ⟨-, hs2⟩ := he
        subst hs2
        refine ⟨by simp [updateRec], by simp, ?_⟩
        simp only [uip_tcpconnect]
        rw [if_pos (by simp [updateRec])]
      | inUse =>
        rw [hsel] at he
        simp at he
      | noFuel =>
        rw [hsel] at he
        simp at he
    · exfalso
      simp only [uip_tcpconnect] at he
      rw [if_pos hA] at he
      simp at he

/-- C7 witness: connecting the ALLOCATED record 0 of c7_s0 yields
UIP_SYN_SENT on the active list, and a second connect fails -EISCONN. -/
theorem C7_witness :
    (c7_s0.recs 0).tcpstateflags = .ALLOCATED ∧
    (c7_s1.recs 0).tcpstateflags = .SYN_SENT ∧ 0 ∈ c7_s1.active ∧
    uip_tcpconnect c7_s1 (some 0) 5 6 7 = some (.eisconn, c7_s1) :=
  (C7_connect_connects_at_most_once c7_s0 c7_s1 0 777 80 42 5 6 7).2 rfl

theorem adopt_none (recs : Nat → Conn) (t : Nat) :
    adopt recs none t = isSacrificial (recs t).tcpstateflags := by
  simp [adopt]

theorem sacrificial_ne (st : TcpState) (h : isSacrificial st = true) :
    st ≠ TcpState.CLOSED ∧ st ≠ TcpState.ALLOCATED := by
  cases st <;> simp_all [isSacrificial]

theorem scan_eq_none (recs : Nat → Conn) :
    ∀ (l : List Nat) (acc : Option Nat),
      scanSacrifice recs l acc = none ↔
        acc = none ∧ ∀ d ∈ l, isSacrificial (recs d).tcpstateflags = false := by
  intro l
  induction l with
  | nil =>
    intro acc
    simp [scanSacrifice]
  | cons t rest ih =>
    intro acc
    simp only [scanSacrifice]
    by_cases hc : adopt recs acc t = true
    · rw [if_pos hc, ih (some t)]
      constructor
      · rintro ⟨h, -⟩
        cases h
      · rintro ⟨ha, hall⟩
        exfalso
        have ht := hall t (by simp)
        subst ha
        rw [adopt_none, ht] at hc
        cases hc
    · rw [if_neg hc, ih acc]
      constructor
      · rintro ⟨ha, hall⟩
        refine ⟨ha, ?_⟩
        intro d hd
        rcases List.mem_cons.mp hd with h1 | h1
        · subst h1
          subst ha
          rw [adopt_none] at hc
          exact Bool.eq_false_iff.mpr hc
        · exact hall d h1
      · rintro ⟨ha, hall⟩
        exact ⟨ha, fun d hd => hall d (List.mem_cons_of_mem _ hd)⟩

theorem scan_spec (recs : Nat → Conn) :
    ∀ (l : List Nat) (acc : Option Nat) (c : Nat),
      scanSacrifice recs l acc = some c →
      (acc = some c ∧ ∀ d ∈ l, isSacrificial (recs d).tcpstateflags = true →
          (recs d).timer ≤ (recs c).timer) ∨
      (isSacrificial (recs c).tcpstateflags = true ∧
        (∀ a, acc = some a → (recs a).timer < (recs c).timer) ∧
        ∃ pre post, l = pre ++ c :: post ∧
          (∀ d ∈ pre, isSacrificial (recs d).tcpstateflags = true →
              (recs d).timer < (recs c).timer) ∧
          (∀ d ∈ post, isSacrificial (recs d).tcpstateflags = true →
              (recs d).timer ≤ (recs c).timer)) := by
  intro l
  induction l with
  | nil =>
    intro acc c h
    simp only [scanSacrifice] at h
    exact Or.inl ⟨h, by simp⟩
  | cons t rest ih =>
    intro acc c h
    simp only [scanSacrifice] at h
    by_cases hc : adopt recs acc t = true
    · rw [if_pos hc] at h
      have hc2 := hc
      unfold adopt at hc2
      rw [Bool.and_eq_true] at hc2
      have hsact := hc2.1
      have hlt : ∀ a, acc = some a → (recs a).timer < (recs t).timer := by
        intro a ha
        subst ha
        simpa using hc2.2
      rcases ih (some t) c h with ⟨heq, hall⟩ | ⟨hsac, hacc, pre, post, heq, hpre, hpost⟩
      · have htc : t = c := Option.some.inj heq
        subst htc
        exact Or.inr ⟨hsact, hlt, [], rest, by simp, by simp, hall⟩
      · have httc : (recs t).timer < (recs c).timer := hacc t rfl
        refine Or.inr ⟨hsac, ?_, t :: pre, post, by simp [heq], ?_, hpost⟩
        · intro a ha
          exact lt_trans (hlt a ha) httc
        · intro d hd hs
          rcases List.mem_cons.mp hd with h1 | h1
          · subst h1
            exact httc
          · exact hpre d h1 hs
    · rw [if_neg hc] at h
      rcases ih acc c h with ⟨heq, hall⟩ | ⟨hsac, hacc, pre, post, heq, hpre, hpost⟩
      · refine Or.inl ⟨heq, ?_⟩
        intro d hd hs
        rcases List.mem_cons.mp hd with h1 | h1
        · subst h1
          subst heq
          unfold adopt at hc
          rw [hs] at hc
          simp at hc
          exact hc
        · exact hall d h1 hs
      · refine Or.inr ⟨hsac, hacc, t :: pre, post, by simp [heq], ?_, hpost⟩
        intro d hd hs
        rcases List.mem_cons.mp hd with h1 | h1
        · subst h1
          cases hao : acc with
          | none =>
            exfalso
            rw [hao] at hc
            unfold adopt at hc
            rw [hs] at hc
            simp at hc
          | some a =>
            have hta := hacc a hao
            rw [hao] at hc
            unfold adopt at hc
            rw [hs] at hc
            simp at hc
            exact lt_of_le_of_lt hc hta
        · exact hpre d h1 hs

/-- C1: with the free list empty and linger mode disabled, uip_tcpalloc
scans the active list; when no record is in a sacrificial state it returns
NULL with the pool unchanged, and otherwise it reclaims the record c whose
timer is strictly greater than every sacrificial record before it on the
active list and at least as great as every other sacrificial record (so on
ties the earlier record wins), tears c down via uip_tcpfree, and returns c
popped from the free list, zeroed and marked UIP_ALLOCATED. -/
theorem C1_alloc_reclaims_greatest_timer (s : Pool) (hfree : s.free = [])
    (hcrefs : ∀ i ∈ s.active, (s.recs i).crefs = 0) :
    ((∀ d ∈ s.active, isSacrificial (s.recs d).tcpstateflags = false) →
        uip_tcpalloc false s = some (s, none)) ∧
    ((∃ d ∈ s.active, isSacrificial (s.recs d).tcpstateflags = true) →
      ∃ c pre post,
        s.active = pre ++ c :: post ∧
        isSacrificial (s.recs c).tcpstateflags = true ∧
        (∀ d ∈ pre, isSacrificial (s.recs d).tcpstateflags = true →
            (s.recs d).timer < (s.recs c).timer) ∧
        (∀ d ∈ s.active, isSacrificial (s.recs d).tcpstateflags = true →
            (s.recs d).timer ≤ (s.recs c).timer) ∧
        uip_tcpalloc false s =
          some ({ s with
                  recs := updateRec s.recs c allocConn,
                  active := s.active.erase c, free := [] }, some c)) := by
  constructor
  · intro hall
    have hscan : scanSacrifice s.recs s.active none = none :=
      (scan_eq_none s.recs s.active none).mpr ⟨rfl, hall⟩
    simp [uip_tcpalloc, hfree, hscan]
  · rintro ⟨d0, hd0, hsacd0⟩
    cases hscan : scanSacrifice s.recs s.active none with
    | none =>
      exfalso
      obtain ⟨-, hall⟩ := (scan_eq_none s.recs s.active none).mp hscan
      rw [hall d0 hd0] at hsacd0
      cases hsacd0
    | some c =>
      rcases scan_spec s.recs s.active none c hscan with
        ⟨h0, -⟩ | ⟨hsac, -, pre, post, heq, hpre, hpost⟩
      · cases h0
      · have hcmem : c ∈ s.active := by rw [heq]; simp
        have hcrefs0 : (s.recs c).crefs = 0 := hcrefs c hcmem
        have hne := sacrificial_ne _ hsac
        have hfreeeq : uip_tcpfree s c =
            some { s with
              recs := updateRec s.recs c
                { s.recs c with list := [], tcpstateflags := .CLOSED },
              active := s.active.erase c,
              free := [c] } := by
          unfold uip_tcpfree
          rw [if_pos hcrefs0, if_pos hne.2, hfree]
          rfl
        refine ⟨c, pre, post, heq, hsac, hpre, ?_, ?_⟩
        · intro d hd hs
          rw [heq] at hd
          rcases List.mem_append.mp hd with h1 | h1
          · exact le_of_lt (hpre d h1 hs)
          · rcases List.mem_cons.mp h1 with h2 | h2
            · subst h2
              exact le_refl _
            · exact hpost d h2 hs
        · simp [uip_tcpalloc, hfree, hscan, hfreeeq, updateRec_updateRec]

/-- C1 witness: in c1_s (free list empty, records 1 and 2 sacrificial with
timer 120, record 1 earlier on the active list) uip_tcpalloc reclaims a
record with the maximal timer that beats every earlier sacrificial record
strictly. -/
theorem C1_witness :
    ((∀ d ∈ c1_s.active, isSacrificial (c1_s.recs d).tcpstateflags = false) →
        uip_tcpalloc false c1_s = some (c1_s, none)) ∧
    ((∃ d ∈ c1_s.active, isSacrificial (c1_s.recs d).tcpstateflags = true) →
      ∃ c pre post,
        c1_s.active = pre ++ c :: post ∧
        isSacrificial (c1_s.recs c).tcpstateflags = true ∧
        (∀ d ∈ pre, isSacrificial (c1_s.recs d).tcpstateflags = true →
            (c1_s.recs d).timer < (c1_s.recs c).timer) ∧
        (∀ d ∈ c1_s.active, isSacrificial (c1_s.recs d).tcpstateflags = true →
            (c1_s.recs d).timer ≤ (c1_s.recs c).timer) ∧
        uip_tcpalloc false c1_s =
          some ({ c1_s with
                  recs := updateRec c1_s.recs c allocConn,
                  active := c1_s.active.erase c, free := [] }, some c)) :=
  C1_alloc_reclaims_greatest_timer c1_s rfl (by decide)

theorem poolInv_init (N : Nat) : PoolInv (uip_tcpinit N) := by
  refine ⟨List.nodup_range N, List.nodup_nil, ?_, ?_, ?_, ?_, ?_⟩
  · intro i hi
    exact List.mem_range.mp hi
  · intro i hi
    cases hi
  · intro i hi
    constructor
    · intro _
      rfl
    · intro _
      exact List.mem_range.mpr hi
  · intro i hi
    cases hi
  · intro i hi hcl _
    exact absurd rfl hcl

theorem scan_none_mem (recs : Nat → Conn) (l : List Nat) (c : Nat)
    (h : scanSacrifice recs l none = some c) :
    c ∈ l ∧ isSacrificial (recs c).tcpstateflags = true := by
  rcases scan_spec recs l none c h with ⟨h0, -⟩ | ⟨hsac, -, pre, post, heq, -, -⟩
  · cases h0
  · exact ⟨by rw [heq]; simp, hsac⟩

theorem tcpfree_some_spec (s : Pool) (i : Nat) (s1 : Pool)
    (he : uip_tcpfree s i = some s1) :
    (s.recs i).crefs = 0 ∧
    s1 = { s with
      recs := updateRec s.recs i
        { s.recs i with list := [], tcpstateflags := .CLOSED },
      active :=
        if (s.recs i).tcpstateflags ≠ .ALLOCATED then s.active.erase i
        else s.active,
      free := s.free ++ [i] } := by
  by_cases hc : (s.recs i).crefs = 0
  · unfold uip_tcpfree at he
    rw [if_pos hc] at he
    exact ⟨hc, (Option.some.inj he).symm⟩
  · unfold uip_tcpfree at he
    rw [if_neg hc] at he
    cases he

theorem alloc_empty_nolinger_none (s : Pool) (hf : s.free = [])
    (hscan : scanSacrifice s.recs s.active none = none) :
    uip_tcpalloc false s = some (s, none) := by
  simp [uip_tcpalloc, hf, hscan]

theorem alloc_empty_nolinger_some (s : Pool) (c : Nat) (hf : s.free = [])
    (hscan : scanSacrifice s.recs s.active none = some c) (s1 : Pool)
    (htf : uip_tcpfree s c = some s1) (hs1 : s1.free = [c]) :
    uip_tcpalloc false s =
      some ({ s1 with free := [], recs := updateRec s1.recs c allocConn },
        some c) := by
  simp [uip_tcpalloc, hf, hscan, htf, hs1]

theorem alloc_abort (s : Pool) (c : Nat) (hf : s.free = [])
    (hscan : scanSacrifice s.recs s.active none = some c)
    (htf : uip_tcpfree s c = none) :
    uip_tcpalloc false s = none := by
  simp [uip_tcpalloc, hf, hscan, htf]

theorem poolInv_free (s s1 : Pool) (i : Nat) (h : PoolInv s)
    (hi : i < s.capacity) (hst : (s.recs i).tcpstateflags ≠ .CLOSED)
    (he : uip_tcpfree s i = some s1) : PoolInv s1 := by
  have hinotfree : i ∉ s.free := fun hmem =>
    hst ((h.freeIffClosed i hi).mp hmem)
  obtain ⟨hc, hs1⟩ := tcpfree_some_spec s i s1 he
  subst hs1
  have hsubA : ∀ j,
      j ∈ (if (s.recs i).tcpstateflags ≠ .ALLOCATED then s.active.erase i
           else s.active) → j ∈ s.active := by
    intro j hj
    split at hj
    · exact List.erase_subset _ _ hj
    · exact hj
  have hiA : i ∈ (if (s.recs i).tcpstateflags ≠ .ALLOCATED
      then s.active.erase i else s.active) → False := by
    intro hj
    split at hj
    · exact (h.nodupActive.mem_erase_iff.mp hj).1 rfl
    · rename_i hcond
      exact (h.activeState i hj).2 (not_not.mp hcond)
  refine ⟨?_, ?_, ?_, ?_, ?_, ?_, ?_⟩
  · exact nodup_append_single s.free i h.nodupFree hinotfree
  · show (if (s.recs i).tcpstateflags ≠ .ALLOCATED then s.active.erase i
        else s.active).Nodup
    split
    · exact h.nodupActive.erase i
    · exact h.nodupActive
  · intro j hj
    rcases List.mem_append.mp hj with h1 | h1
    · exact h.freeLt j h1
    · simp only [List.mem_singleton] at h1
      subst h1
      exact hi
  · intro j hj
    exact h.activeLt j (hsubA j hj)
  · intro j hj
    by_cases hji : j = i
    · subst hji
      constructor
      · intro _
        show (updateRec s.recs j _ j).tcpstateflags = .CLOSED
        rw [updateRec_self]
      · intro _
        simp
    · show j ∈ s.free ++ [i] ↔
        (updateRec s.recs i _ j).tcpstateflags = .CLOSED
      rw [updateRec_ne _ _ _ _ hji]
      simp only [List.mem_append, List.mem_singleton]
      constructor
      · intro hm
        rcases hm with hm | hm
        · exact (h.freeIffClosed j hj).mp hm
        · exact absurd hm hji
      · intro hm
        exact Or.inl ((h.freeIffClosed j hj).mpr hm)
  · intro j hj
    have hjact := hsubA j hj
    have hji : j ≠ i := fun e => hiA (e ▸ hj)
    show (updateRec s.recs i _ j).tcpstateflags ≠ .CLOSED ∧
      (updateRec s.recs i _ j).tcpstateflags ≠ .ALLOCATED
    rw [updateRec_ne _ _ _ _ hji]
    exact h.activeState j hjact
  · intro j hj hcl hal
    by_cases hji : j = i
    · subst hji
      exact absurd (show (updateRec s.recs j
          { s.recs j with list := [], tcpstateflags := .CLOSED } j).tcpstateflags
            = .CLOSED by rw [updateRec_self]) hcl
    · rw [show ({ s with
          recs := updateRec s.recs i
            { s.recs i with list := [], tcpstateflags := .CLOSED },
          active :=
            if (s.recs i).tcpstateflags ≠ .ALLOCATED then s.active.erase i
            else s.active,
          free := s.free ++ [i] } : Pool).recs j = s.recs j from
        updateRec_ne _ _ _ _ hji] at hcl hal
      have hjact := h.activeOfState j hj hcl hal
      show j ∈ (if (s.recs i).tcpstateflags ≠ .ALLOCATED then s.active.erase i
          else s.active)
      split
      · exact (h.nodupActive.mem_erase_iff).mpr ⟨hji, hjact⟩
      · exact hjact

theorem poolInv_pop (s : Pool) (i : Nat) (rest : List Nat) (h : PoolInv s)
    (hf : s.free = i :: rest) :
    PoolInv { s with free := rest, recs := updateRec s.recs i allocConn } ∧
      i < s.capacity := by
  have himem : i ∈ s.free := by rw [hf]; simp
  have hi : i < s.capacity := h.freeLt i himem
  have hclosed : (s.recs i).tcpstateflags = .CLOSED :=
    (h.freeIffClosed i hi).mp himem
  have hinotact : i ∉ s.active := fun hmem =>
    (h.activeState i hmem).1 hclosed
  have hnodup : (i :: rest).Nodup := by rw [← hf]; exact h.nodupFree
  have hinotrest : i ∉ rest := (List.nodup_cons.mp hnodup).1
  refine ⟨⟨(List.nodup_cons.mp hnodup).2, h.nodupActive, ?_, h.activeLt,
    ?_, ?_, ?_⟩, hi⟩
  · intro j hj
    exact h.freeLt j (by rw [hf]; exact List.mem_cons_of_mem _ hj)
  · intro j hj
    by_cases hji : j = i
    · subst hji
      constructor
      · intro hm
        exact absurd hm hinotrest
      · intro hcl
        have hcl2 : (updateRec s.recs j allocConn j).tcpstateflags =
            TcpState.CLOSED := hcl
        rw [updateRec_self] at hcl2
        cases hcl2
    · show j ∈ rest ↔ (updateRec s.recs i allocConn j).tcpstateflags = .CLOSED
      rw [updateRec_ne _ _ _ _ hji]
      have h2 := h.freeIffClosed j hj
      rw [hf] at h2
      simp only [List.mem_cons] at h2
      constructor
      · intro hm
        exact h2.mp (Or.inr hm)
      · intro hm
        rcases h2.mpr hm with hme | hme
        · exact absurd hme hji
        · exact hme
  · intro j hj
    have hji : j ≠ i := fun e => hinotact (e ▸ hj)
    show (updateRec s.recs i allocConn j).tcpstateflags ≠ .CLOSED ∧
      (updateRec s.recs i allocConn j).tcpstateflags ≠ .ALLOCATED
    rw [updateRec_ne _ _ _ _ hji]
    exact h.activeState j hj
  · intro j hj hcl hal
    by_cases hji : j = i
    · subst hji
      exact absurd (show (updateRec s.recs j allocConn j).tcpstateflags =
        .ALLOCATED by rw [updateRec_self]; rfl) hal
    · have hcl2 : (updateRec s.recs i allocConn j).tcpstateflags ≠
          TcpState.CLOSED := hcl
      have hal2 : (updateRec s.recs i allocConn j).tcpstateflags ≠
          TcpState.ALLOCATED := hal
      rw [updateRec_ne _ _ _ _ hji] at hcl2 hal2
      exact h.activeOfState j hj hcl2 hal2

theorem alloc_inv (so : Bool) (s s1 : Pool) (r : Option Nat) (h : PoolInv s)
    (he : uip_tcpalloc so s = some (s1, r)) :
    PoolInv s1 ∧ s1.capacity = s.capacity ∧
      ∀ i, r = some i → i < s1.capacity ∧
        (s1.recs i).tcpstateflags = .ALLOCATED := by
  cases hf : s.free with
  | cons i rest =>
    rw [alloc_pop so s i rest hf] at he
    simp only [Option.some.injEq, Prod.mk.injEq] at he
    obtain ⟨hs1, hr⟩ := he
    subst hs1
    obtain ⟨hinv, hi⟩ := poolInv_pop s i rest h hf
    refine ⟨hinv, rfl, ?_⟩
    intro k hk
    rw [← hr] at hk
    have hk2 := Option.some.inj hk
    subst hk2
    refine ⟨hi, ?_⟩
    show (updateRec s.recs i allocConn i).tcpstateflags = TcpState.ALLOCATED
    rw [updateRec_self]
    rfl
  | nil =>
    cases so with
    | true =>
      rw [alloc_empty_linger s hf] at he
      simp only [Option.some.injEq, Prod.mk.injEq] at he
      obtain ⟨hs1, hr⟩ := he
      subst hs1
      refine ⟨h, rfl, ?_⟩
      intro k hk
      rw [← hr] at hk
      cases hk
    | false =>
      cases hscan : scanSacrifice s.recs s.active none with
      | none =>
        rw [alloc_empty_nolinger_none s hf hscan] at he
        simp only [Option.some.injEq, Prod.mk.injEq] at he
        obtain ⟨hs1, hr⟩ := he
        subst hs1
        refine ⟨h, rfl, ?_⟩
        intro k hk
        rw [← hr] at hk
        cases hk
      | some c =>
        obtain ⟨hcmem, hcsac⟩ := scan_none_mem s.recs s.active c hscan
        have hcstate := sacrificial_ne _ hcsac
        have hci : c < s.capacity := h.activeLt c hcmem
        cases htf : uip_tcpfree s c with
        | none =>
          rw [alloc_abort s c hf hscan htf] at he
          cases he
        | some sf =>
          have hsf1 : sf.free = [c] := by
            obtain ⟨-, hsfeq⟩ := tcpfree_some_spec s c sf htf
            rw [hsfeq, hf]
            rfl
          have hsfcap : sf.capacity = s.capacity := by
            obtain ⟨-, hsfeq⟩ := tcpfree_some_spec s c sf htf
            rw [hsfeq]
          have hinvf : PoolInv sf := poolInv_free s sf c h hci hcstate.1 htf
          rw [alloc_empty_nolinger_some s c hf hscan sf htf hsf1] at he
          simp only [Option.some.injEq, Prod.mk.injEq] at he
          obtain ⟨hs1, hr⟩ := he
          subst hs1
          obtain ⟨hinv2, hci2⟩ := poolInv_pop sf c [] hinvf hsf1
          refine ⟨hinv2, hsfcap, ?_⟩
          intro k hk
          rw [← hr] at hk
          have hk2 := Option.some.inj hk
          subst hk2
          refine ⟨hci2, ?_⟩
          show (updateRec sf.recs c allocConn c).tcpstateflags =
            TcpState.ALLOCATED
          rw [updateRec_self]
          rfl

theorem poolInv_activate (s : Pool) (i : Nat) (c2 : Conn) (lp : Nat)
    (h : PoolInv s) (hi : i < s.capacity)
    (hA : (s.recs i).tcpstateflags = .ALLOCATED)
    (h1 : c2.tcpstateflags ≠ TcpState.CLOSED)
    (h2 : c2.tcpstateflags ≠ TcpState.ALLOCATED) :
    PoolInv { s with
      recs := updateRec s.recs i c2,
      active := s.active ++ [i],
      lastPort := lp } := by
  have hinotfree : i ∉ s.free := fun hm => by
    have hx := (h.freeIffClosed i hi).mp hm
    rw [hA] at hx
    cases hx
  have hinotact : i ∉ s.active := fun hm => (h.activeState i hm).2 hA
  refine ⟨h.nodupFree, nodup_append_single s.active i h.nodupActive hinotact,
    h.freeLt, ?_, ?_, ?_, ?_⟩
  · intro j hj
    rcases List.mem_append.mp hj with hx | hx
    · exact h.activeLt j hx
    · simp only [List.mem_singleton] at hx
      subst hx
      exact hi
  · intro j hj
    by_cases hji : j = i
    · subst hji
      constructor
      · intro hm
        exact absurd hm hinotfree
      · intro hcl
        have hcl2 : (updateRec s.recs j c2 j).tcpstateflags =
            TcpState.CLOSED := hcl
        rw [updateRec_self] at hcl2
        exact absurd hcl2 h1
    · show j ∈ s.free ↔
        (updateRec s.recs i c2 j).tcpstateflags = TcpState.CLOSED
      rw [updateRec_ne _ _ _ _ hji]
      exact h.freeIffClosed j hj
  · intro j hj
    rcases List.mem_append.mp hj with hx | hx
    · have hji : j ≠ i := fun e => hinotact (e ▸ hx)
      show (updateRec s.recs i c2 j).tcpstateflags ≠ TcpState.CLOSED ∧
        (updateRec s.recs i c2 j).tcpstateflags ≠ TcpState.ALLOCATED
      rw [updateRec_ne _ _ _ _ hji]
      exact h.activeState j hx
    · simp only [List.mem_singleton] at hx
      subst hx
      show (updateRec s.recs j c2 j).tcpstateflags ≠ TcpState.CLOSED ∧
        (updateRec s.recs j c2 j).tcpstateflags ≠ TcpState.ALLOCATED
      rw [updateRec_self]
      exact ⟨h1, h2⟩
  · intro j hj hcl hal
    by_cases hji : j = i
    · subst hji
      exact List.mem_append_right _ (by simp)
    · have hcl2 : (updateRec s.recs i c2 j).tcpstateflags ≠
          TcpState.CLOSED := hcl
      have hal2 : (updateRec s.recs i c2 j).tcpstateflags ≠
          TcpState.ALLOCATED := hal
      rw [updateRec_ne _ _ _ _ hji] at hcl2 hal2
      exact List.mem_append_left _ (h.activeOfState j hj hcl2 hal2)

theorem poolInv_accept (so : Bool) (s s1 : Pool) (buf : TcpHdr) (isn : Nat)
    (r : Option Nat) (h : PoolInv s)
    (he : uip_tcpaccept so s buf isn = some (s1, r)) : PoolInv s1 := by
  unfold uip_tcpaccept at he
  cases ha : uip_tcpalloc so s with
  | none =>
    rw [ha] at he
    cases he
  | some pr =>
    obtain ⟨sa2, r2⟩ := pr
    rw [ha] at he
    obtain ⟨hinv2, hcap, hres⟩ := alloc_inv so s sa2 r2 h ha
    cases r2 with
    | none =>
      simp only [Option.some.injEq, Prod.mk.injEq] at he
      obtain ⟨hs1, -⟩ := he
      subst hs1
      exact hinv2
    | some i =>
      obtain ⟨hi, hall⟩ := hres i rfl
      simp only [Option.some.injEq, Prod.mk.injEq] at he
      obtain ⟨hs1, -⟩ := he
      subst hs1
      refine poolInv_activate sa2 i _ sa2.lastPort hinv2 hi hall ?_ ?_ <;>
        simp

theorem poolInv_connect (s s1 : Pool) (i ra rp isn : Nat) (r : SockResult)
    (h : PoolInv s) (hi : i < s.capacity)
    (he : uip_tcpconnect s (some i) ra rp isn = some (r, s1)) : PoolInv s1 := by
  simp only [uip_tcpconnect] at he
  by_cases hA : (s.recs i).tcpstateflags = .ALLOCATED
  · rw [if_neg (by simp [hA])] at he
    cases hsel : uip_selectport s (ntohs16 (s.recs i).lport) with
    | ok port last1 =>
      rw [hsel] at he
      simp only [Option.some.injEq, Prod.mk.injEq] at he
      obtain ⟨-, hs1⟩ := he
      subst hs1
      refine poolInv_activate s i _ last1 h hi hA ?_ ?_ <;> simp
    | inUse =>
      rw [hsel] at he
      simp only [Option.some.injEq, Prod.mk.injEq] at he
      obtain ⟨-, hs1⟩ := he
      subst hs1
      exact h
    | noFuel =>
      rw [hsel] at he
      cases he
  · rw [if_pos hA] at he
    simp only [Option.some.injEq, Prod.mk.injEq] at he
    obtain ⟨-, hs1⟩ := he
    subst hs1
    exact h

theorem poolInv_bind (s s1 : Pool) (i sinPort : Nat) (r : SockResult)
    (h : PoolInv s)
    (he : uip_tcpbind s i sinPort = some (r, s1)) : PoolInv s1 := by
  unfold uip_tcpbind at he
  cases hsel : uip_selectport s (ntohs16 sinPort) with
  | noFuel =>
    rw [hsel] at he
    cases he
  | inUse =>
    rw [hsel] at he
    simp only [Option.some.injEq, Prod.mk.injEq] at he
    obtain ⟨-, hs1⟩ := he
    subst hs1
    exact h
  | ok port last1 =>
    rw [hsel] at he
    simp only [Option.some.injEq, Prod.mk.injEq] at he
    obtain ⟨-, hs1⟩ := he
    subst hs1
    have hstate : ∀ j, (updateRec s.recs i
        { s.recs i with lport := sinPort } j).tcpstateflags =
        (s.recs j).tcpstateflags := by
      intro j
      by_cases hji : j = i
      · subst hji
        rw [updateRec_self]
      · rw [updateRec_ne _ _ _ _ hji]
    refine ⟨h.nodupFree, h.nodupActive, h.freeLt, h.activeLt, ?_, ?_, ?_⟩
    · intro j hj
      show j ∈ s.free ↔ (updateRec s.recs i
        { s.recs i with lport := sinPort } j).tcpstateflags = TcpState.CLOSED
      rw [hstate j]
      exact h.freeIffClosed j hj
    · intro j hj
      show (updateRec s.recs i
          { s.recs i with lport := sinPort } j).tcpstateflags ≠
            TcpState.CLOSED ∧
        (updateRec s.recs i
          { s.recs i with lport := sinPort } j).tcpstateflags ≠
            TcpState.ALLOCATED
      rw [hstate j]
      exact h.activeState j hj
    · intro j hj hcl hal
      have hcl2 : (updateRec s.recs i
          { s.recs i with lport := sinPort } j).tcpstateflags ≠
            TcpState.CLOSED := hcl
      have hal2 : (updateRec s.recs i
          { s.recs i with lport := sinPort } j).tcpstateflags ≠
            TcpState.ALLOCATED := hal
      rw [hstate j] at hcl2 hal2
      exact h.activeOfState j hj hcl2 hal2

theorem poolInv_step (s s1 : Pool) (h : PoolInv s) (hs : Step s s1) :
    PoolInv s1 := by
  cases hs with
  | alloc so r he => exact (alloc_inv so s s1 r h he).1
  | release i hi hne he => exact poolInv_free s s1 i h hi hne he
  | accept so buf isn r he => exact poolInv_accept so s s1 buf isn r h he
  | connect i ra rp isn r hi he =>
      exact poolInv_connect s s1 i ra rp isn r h hi he
  | bind i sinPort r hi he => exact poolInv_bind s s1 i sinPort r h he

theorem poolInv_reachable (N : Nat) (s : Pool) (h : Reachable N s) :
    PoolInv s := by
  induction h with
  | start => exact poolInv_init N
  | step hr hstep ih => exact poolInv_step _ _ ih hstep

/-- C2: in every pool reachable from uip_tcpinit by any sequence of
allocate, release, accept, connect and bind operations, every record of the
arena is on the free list exactly when its state is UIP_CLOSED, a record in
UIP_ALLOCATED is on neither list, every record in any other state is on the
active list, and no record is ever on both lists. -/
theorem C2_list_membership_invariant (N : Nat) (s : Pool)
    (h : Reachable N s) :
    ∀ i < s.capacity,
      (i ∈ s.free ↔ (s.recs i).tcpstateflags = .CLOSED) ∧
      ((s.recs i).tcpstateflags = .ALLOCATED → i ∉ s.free ∧ i ∉ s.active) ∧
      ((s.recs i).tcpstateflags ≠ .CLOSED →
        (s.recs i).tcpstateflags ≠ .ALLOCATED → i ∈ s.active) ∧
      ¬(i ∈ s.free ∧ i ∈ s.active) := by
  have hinv := poolInv_reachable N s h
  intro i hi
  refine ⟨hinv.freeIffClosed i hi, ?_, hinv.activeOfState i hi, ?_⟩
  · intro hA
    constructor
    · intro hm
      have hx := (hinv.freeIffClosed i hi).mp hm
      rw [hA] at hx
      cases hx
    · intro hm
      exact (hinv.activeState i hm).2 hA
  · rintro ⟨hf, ha⟩
    exact (hinv.activeState i ha).1 ((hinv.freeIffClosed i hi).mp hf)

/-- C2 witness: the invariant instantiated at record 0 of the freshly
initialized pool of capacity 4 (reachable by the empty sequence). -/
theorem C2_witness :
    (0 ∈ (uip_tcpinit 4).free ↔
      ((uip_tcpinit 4).recs 0).tcpstateflags = .CLOSED) ∧
    (((uip_tcpinit 4).recs 0).tcpstateflags = .ALLOCATED →
      0 ∉ (uip_tcpinit 4).free ∧ 0 ∉ (uip_tcpinit 4).active) ∧
    (((uip_tcpinit 4).recs 0).tcpstateflags ≠ .CLOSED →
      ((uip_tcpinit 4).recs 0).tcpstateflags ≠ .ALLOCATED →
      0 ∈ (uip_tcpinit 4).active) ∧
    ¬(0 ∈ (uip_tcpinit 4).free ∧ 0 ∈ (uip_tcpinit 4).active) :=
  C2_list_membership_invariant 4 (uip_tcpinit 4) Reachable.start 0 (by decide)

/-- C9 witness: the exhaustion property instantiated at capacity 3. -/
theorem C9_witness :
    (allocSeq true 3 (uip_tcpinit 3)).2 = (List.range 3).map some ∧
    ((allocSeq true 3 (uip_tcpinit 3)).2).Nodup ∧
    uip_tcpalloc true (allocSeq true 3 (uip_tcpinit 3)).1 =
      some ((allocSeq true 3 (uip_tcpinit 3)).1, none) :=
  C9_exhaustion_under_linger 3

/-- C10 witness: the NULL rejection instantiated at a concrete pool and
endpoint. -/
theorem C10_witness :
    uip_tcpconnect (uip_tcpinit 4) none 1 2 3 =
      some (.eisconn, uip_tcpinit 4) :=
  C10_connect_null_rejected (uip_tcpinit 4) 1 2 3
